import Mathlib

/-!
Shallow embedding of the yewv reactive store (src/hook/store/) and proofs of
the specification claims about it.

The embedding follows the Rust source:
  * `Yewv.Store` models `Store<T>` of src/hook/store/store.rs: `previous_state`
    and `state` snapshots plus a subscriber list.  Subscriber callbacks are
    defunctionalized as `SubBehavior` values addressed by `Nat` ids via an
    environment, so that the side effects a boxed `Fn(&T, &T) -> bool` closure
    can perform against the store (subscribing new callbacks, calling
    `set_state` reentrantly) become explicit data.  Invocations are recorded in
    a log so that "called exactly once with (previous, next)" is statable.
  * `Store.notify` mirrors store.rs lines 77-83: the subscriber list is taken
    out (`std::mem::take`), `previous_state` and `state` are borrowed (shared
    `Ref` guards that stay alive across the whole retain loop), each taken
    callback runs in order, and survivors are appended back after anything the
    callbacks pushed meanwhile.  Because the `Ref` guards on `state` and
    `previous_state` are held across the loop, a reentrant `set_state` from
    inside a callback calls `RefCell::borrow_mut` on an already-borrowed cell
    and panics; the model returns `Except.error` with the RefCell panic
    message at that point.
  * `Yewv.DynAny`/`Yewv.ValSub`/`Yewv.RefSub`/`Yewv.Subscriptions` model the
    per-observer registry of src/hook/store/handle.rs, with `Rc<dyn Any>`
    rendered as an (address, tagged value) pair so that `Rc::ptr_eq` and
    `downcast` are explicit, and `Yewv.use_store_subscriber` models the raw
    subscriber closure installed by `use_store_subscription`
    (src/hook/store/mod.rs lines 75-108).
  * `Yewv.StoreContext` models src/hook/store/context.rs's `PartialEq` and
    `Clone` implementations, with `Rc` identity rendered as addresses.
-/

namespace Yewv

/-- Behavior of one raw subscriber callback `Fn(&T, &T) -> bool` registered on
the store, defunctionalized: given the `(previous, next)` pair the callback
receives, `keep` is its return value (keep-alive flag), `newSubs` lists the
ids of callbacks it itself registers via `Store::subscribe` while running, and
`nestedSet`, when `some s`, means the callback calls `set_state s` reentrantly
while running. -/
structure SubBehavior (σ : Type) where
  keep : σ → σ → Bool
  newSubs : σ → σ → List Nat
  nestedSet : σ → σ → Option σ

/-- Model of `Store<T>` (store.rs lines 7-11).  Subscriber closures are
represented by their ids into a `SubBehavior` environment.  `log` records each
callback invocation as (id, previous, next), in invocation order; it models
the externally observable calls into the boxed closures. -/
structure Store (σ : Type) where
  previous_state : σ
  state : σ
  subscriptions : List Nat
  log : List (Nat × σ × σ)

/-- Model of `Store::new` (store.rs lines 21-28): both snapshots are set to
the initial state and the subscriber list starts empty. -/
def Store.new (initial_state : σ) : Store σ :=
  { previous_state := initial_state
    state := initial_state
    subscriptions := []
    log := [] }

/-- Model of `Store::subscribe` (store.rs lines 73-75): push the callback onto
the subscriber list.  Nothing else happens: no snapshot changes and no
invocation of the callback. -/
def Store.subscribe (self : Store σ) (callback : Nat) : Store σ :=
  { self with subscriptions := self.subscriptions ++ [callback] }

/-- The retain loop of `Store::notify` (store.rs line 81), running over the
taken-out subscriber list.  For each callback in order: its invocation is
logged, its `Store::subscribe` side effects land on the live (currently empty
or refilling) subscriber list, and if it calls `set_state` reentrantly the run
aborts with the `RefCell` panic (`state.borrow_mut()` inside `set_state` while
`notify` still holds the shared `Ref` guards of store.rs lines 79-80).
Returns the survivors (callbacks that returned `true`), in order. -/
def Store.notifyLoop (env : Nat → SubBehavior σ) (previous next : σ) :
    List Nat → Store σ → Except String (List Nat × Store σ)
  | [], self => .ok ([], self)
  | s :: rest, self =>
    let b := env s
    let self' : Store σ :=
      { self with
        log := self.log ++ [(s, previous, next)]
        subscriptions := self.subscriptions ++ b.newSubs previous next }
    match b.nestedSet previous next with
    | some _ => .error "already borrowed: BorrowMutError"
    | none =>
      match Store.notifyLoop env previous next rest self' with
      | .error e => .error e
      | .ok (kept, self'') =>
        .ok ((if b.keep previous next then [s] else []) ++ kept, self'')

/-- Model of `Store::notify` (store.rs lines 77-83): take the full subscriber
list out (`std::mem::take`), run the retain loop against the borrowed
`(previous_state, state)` pair, then append the survivors back after whatever
the callbacks subscribed meanwhile. -/
def Store.notify (env : Nat → SubBehavior σ) (self : Store σ) :
    Except String (Store σ) :=
  let subs := self.subscriptions
  let taken : Store σ := { self with subscriptions := [] }
  match Store.notifyLoop env taken.previous_state taken.state subs taken with
  | .error e => .error e
  | .ok (kept, self') =>
    .ok { self' with subscriptions := self'.subscriptions ++ kept }

/-- Model of `Store::set_state` (store.rs lines 52-59): move `state` into
`previous_state`, install the new state, then notify. -/
def Store.set_state (env : Nat → SubBehavior σ) (self : Store σ)
    (new_state : σ) : Except String (Store σ) :=
  Store.notify env
    { self with previous_state := self.state, state := new_state }

/-- The list of subscriber ids the callbacks of `l` register during a
notification pass with the given `(previous, next)` pair, in invocation
order. -/
def addedSubs (env : Nat → SubBehavior σ) (previous next : σ)
    (l : List Nat) : List Nat :=
  (l.map fun i => (env i).newSubs previous next).flatten

/-- Tags for the dynamic types that can live in an `Rc<dyn Any>` selector
cache slot.  Two distinct tags are enough to model `Any::downcast` succeeding
or failing. -/
inductive Ty where
  | tnat : Ty
  | tbool : Ty
deriving DecidableEq

/-- A dynamically typed derived value, modelling the payload of an
`Rc<dyn Any>` cache entry (a concrete `M: PartialEq + 'static`).  Equality of
two `DynAny` values with the same tag coincides with `PartialEq` on the
underlying `M`. -/
inductive DynAny where
  | vnat : Nat → DynAny
  | vbool : Bool → DynAny
deriving DecidableEq

/-- The dynamic type tag of a value; `downcast::<M>` on an `Rc<dyn Any>`
succeeds exactly when the stored value's tag is `M`'s tag. -/
def DynAny.ty : DynAny → Ty
  | .vnat _ => .tnat
  | .vbool _ => .tbool

/-- Model of `Rc<dyn Any>`: an allocation address paired with the stored
value.  `Rc::clone` preserves the address, `Rc::new` returns a fresh address,
and `Rc::ptr_eq` compares addresses. -/
abbrev RcAny := Nat × DynAny

/-- Panic message of the `downcast` expect inside the closure pushed by
`UseStoreHandle::map` (handle.rs lines 53 and 66). -/
def mapMsg : String := "Store map was called in a different order."

/-- Panic message of the `downcast` expect inside the closure pushed by
`UseStoreHandle::watch` (handle.rs line 157). -/
def watchMsg : String := "Store hooks were called in a different order"

/-- Panic message of the `states.get(i).expect` in the value-subscription loop
of the raw subscriber closure (mod.rs line 89). -/
def stateErrMsg : String := "Store subscription has no corresponding state."

/-- One entry of `Subscriptions::subscriptions`
(`Box<dyn Fn(Rc<dyn Any>, &T) -> Rc<dyn Any>>`), defunctionalized by the data
the pushed closure captures: the selector `fn` (the `map`/`watch` argument),
the concrete derived type `ty` it downcasts the cached value to, and the
panic message of that downcast (`map` and `watch` use different strings). -/
structure ValSub (σ : Type) where
  ty : Ty
  fn : σ → DynAny
  msg : String

/-- One entry of `Subscriptions::ref_subscriptions`
(`Box<dyn Fn(Ref<Rc<T>>, Ref<Rc<T>>) -> bool>`), defunctionalized by the
captured selector: both `map_ref` and `watch_ref` push the closure
comparing `*Ref::map(prev, &map) != *Ref::map(next, &map)`
(handle.rs lines 98-100 and 126-128). -/
structure RefSub (σ : Type) where
  fn : σ → DynAny

/-- Model of `Subscriptions<T>` (handle.rs lines 9-13): the per-observer
registry of cached derived values, value subscriptions and reference
subscriptions. -/
structure Subscriptions (σ : Type) where
  states : List RcAny
  subscriptions : List (ValSub σ)
  ref_subscriptions : List (RefSub σ)

/-- The registry clearing performed at the start of every evaluation pass by
`use_store` (mod.rs lines 36-40): `subscriptions` and `ref_subscriptions` are
cleared, while `states` (the cached derived values) persists. -/
def use_store_begin (s : Subscriptions σ) : Subscriptions σ :=
  { s with subscriptions := ([] : List (ValSub σ)),
           ref_subscriptions := ([] : List (RefSub σ)) }

/-- Model of `UseStoreHandle::map` (handle.rs lines 46-73).  `f` is the
selector, `ty` its derived type's tag, `cur` the store's current state and
`alloc` the next fresh `Rc` address.  If a cached value exists at this slot
(slot index = number of value subscriptions declared so far this pass) it is
downcast — panicking with `mapMsg` when the dynamic type differs — and
returned as-is; otherwise `f cur` is computed, wrapped in a fresh `Rc` and
cached.  In both cases the notification closure capturing `f` is pushed. -/
def UseStoreHandle.map (f : σ → DynAny) (ty : Ty) (cur : σ)
    (s : Subscriptions σ) (alloc : Nat) :
    Except String (RcAny × Subscriptions σ × Nat) :=
  let current_index := s.subscriptions.length
  match s.states[current_index]? with
  | some st =>
    if st.2.ty = ty then
      .ok (st,
        { s with subscriptions := s.subscriptions ++ [⟨ty, f, mapMsg⟩] },
        alloc)
    else .error mapMsg
  | none =>
    let state : RcAny := (alloc, f cur)
    .ok (state,
      { s with
        states := s.states ++ [state]
        subscriptions := s.subscriptions ++ [⟨ty, f, mapMsg⟩] },
      alloc + 1)

/-- Model of `UseStoreHandle::watch` (handle.rs lines 149-163): push the
comparison closure onto the value-subscription list.  Note that, unlike
`map`, no cached state is created for the slot. -/
def UseStoreHandle.watch (f : σ → DynAny) (ty : Ty) (s : Subscriptions σ) :
    Subscriptions σ :=
  { s with subscriptions := s.subscriptions ++ [⟨ty, f, watchMsg⟩] }

/-- Model of `UseStoreHandle::map_ref` (handle.rs lines 93-102): return the
selected view of the current state and push the reference-comparison
closure. -/
def UseStoreHandle.map_ref (f : σ → DynAny) (cur : σ)
    (s : Subscriptions σ) : DynAny × Subscriptions σ :=
  (f cur, { s with ref_subscriptions := s.ref_subscriptions ++ [⟨f⟩] })

/-- Model of `UseStoreHandle::watch_ref` (handle.rs lines 122-129): push the
reference-comparison closure. -/
def UseStoreHandle.watch_ref (f : σ → DynAny) (s : Subscriptions σ) :
    Subscriptions σ :=
  { s with ref_subscriptions := s.ref_subscriptions ++ [⟨f⟩] }

/-- The value-subscription loop of the raw subscriber closure (mod.rs lines
83-94) walking `subscriptions` with index `i` and reading `states[i]` —
rendered as a lockstep walk of both lists, which is equivalent and hits the
`states.get(i).expect` panic exactly when `states` runs out first.  Each
iteration runs the pushed closure: compute `next = map(next_state)`, downcast
the cached `Rc<dyn Any>` (panics with the closure's message on tag mismatch),
and return the cached `Rc` unchanged when equal, a freshly allocated `Rc`
otherwise; `require_render` accumulates `!Rc::ptr_eq(state, next_state)`.
Returns the new `states` vector, the `require_render` flag and the next fresh
address. -/
def valLoop (next : σ) : List (ValSub σ) → List RcAny → Nat →
    Except String (List RcAny × Bool × Nat)
  | [], _, alloc => .ok ([], false, alloc)
  | _ :: _, [], _ => .error stateErrMsg
  | sub :: subsRest, st :: stRest, alloc =>
    let nv := sub.fn next
    if st.2.ty = sub.ty then
      let next_state : RcAny := if nv = st.2 then st else (alloc, nv)
      let alloc' := if nv = st.2 then alloc else alloc + 1
      match valLoop next subsRest stRest alloc' with
      | .error e => .error e
      | .ok (sts, rr, a) =>
        .ok (next_state :: sts, (decide (st.1 ≠ next_state.1) || rr), a)
    else .error sub.msg

/-- The reference-subscription loop of the raw subscriber closure (mod.rs
lines 100-105): the first pushed comparison closure that reports a difference
wakes the observer and short-circuits. -/
def refLoopWake (prev next : σ) (s : Subscriptions σ) : Bool :=
  s.ref_subscriptions.any fun r => decide (r.fn prev ≠ r.fn next)

/-- The per-observer data captured by the raw subscriber closure installed by
`use_store_subscription` (mod.rs lines 68-74): the shared `is_active` flag
(flipped by `WatchState::drop`) and the shared `Subscriptions` cell. -/
structure Observer (σ : Type) where
  is_active : Bool
  subs : Subscriptions σ

/-- Model of `WatchState::drop` (mod.rs lines 52-56), run when the observer
is detached: flip the shared `is_active` flag to false.  The store's
subscriber list is not touched here. -/
def WatchState.drop (o : Observer σ) : Observer σ :=
  { o with is_active := false }

/-- Result of one invocation of the raw subscriber closure: its boolean
return value (keep-alive), the number of times it invoked the observer's wake
(re-render) callback `r`, the updated observer cell, and the next fresh `Rc`
address. -/
structure SubResult (σ : Type) where
  keep : Bool
  wakes : Nat
  obs : Observer σ
  alloc : Nat

/-- Model of the raw subscriber closure built by `use_store_subscription`
(mod.rs lines 77-107).  If the observer was detached, return `false`
immediately (no selector is evaluated and no wake happens).  Otherwise run
the value-subscription loop when any value subscription exists, store the new
cache vector, and wake once if the loop detected a pointer change; otherwise
fall through to the reference-subscription loop and wake once at the first
reported difference; return `true` in every active path. -/
def use_store_subscriber (prev next : σ) (o : Observer σ) (alloc : Nat) :
    Except String (SubResult σ) :=
  match o.is_active with
  | false => .ok ⟨false, 0, o, alloc⟩
  | true =>
    match o.subs.subscriptions with
    | [] =>
      match refLoopWake prev next o.subs with
      | true => .ok ⟨true, 1, o, alloc⟩
      | false => .ok ⟨true, 0, o, alloc⟩
    | sub₀ :: subsRest =>
      match valLoop next (sub₀ :: subsRest) o.subs.states alloc with
      | .error e => .error e
      | .ok (next_states, require_render, alloc') =>
        let o' : Observer σ :=
          { o with subs := { o.subs with states := next_states } }
        match require_render, refLoopWake prev next o'.subs with
        | true, _ => .ok ⟨true, 1, o', alloc'⟩
        | false, true => .ok ⟨true, 1, o', alloc'⟩
        | false, false => .ok ⟨true, 0, o', alloc'⟩

/-- Model of `Store<T>` specialized to the raw subscriber closures installed
by `use_store_subscription`: each subscriber entry is the `Observer` data one
such closure captures.  The allocator threads the fresh `Rc` addresses. -/
structure HookStore (σ : Type) where
  previous_state : σ
  state : σ
  subscriptions : List (Observer σ)
  alloc : Nat

/-- The retain loop of `Store::notify` over the taken-out observer closures:
run each in order, collecting its keep-alive flag, wake count and updated
cell. -/
def hookNotifyLoop (prev next : σ) : List (Observer σ) → Nat →
    Except String (List (Bool × Nat × Observer σ) × Nat)
  | [], alloc => .ok ([], alloc)
  | o :: rest, alloc =>
    match use_store_subscriber prev next o alloc with
    | .error e => .error e
    | .ok r =>
      match hookNotifyLoop prev next rest r.alloc with
      | .error e => .error e
      | .ok (results, a) => .ok ((r.keep, r.wakes, r.obs) :: results, a)

/-- Model of `Store::notify` (store.rs lines 77-83) with observer-closure
subscribers: run the loop over the current subscriber list and keep exactly
the entries whose closure returned `true`.  Also returns the per-entry wake
counts, aligned with the pre-notification subscriber list. -/
def HookStore.notify (self : HookStore σ) :
    Except String (HookStore σ × List Nat) :=
  match hookNotifyLoop self.previous_state self.state self.subscriptions
      self.alloc with
  | .error e => .error e
  | .ok (results, a) =>
    .ok ({ self with
           subscriptions := (results.filter fun r => r.1).map fun r => r.2.2
           alloc := a },
         results.map fun r => r.2.1)

/-- Model of `Store::set_state` (store.rs lines 52-59) with observer-closure
subscribers. -/
def HookStore.set_state (self : HookStore σ) (new_state : σ) :
    Except String (HookStore σ × List Nat) :=
  HookStore.notify
    { self with previous_state := self.state, state := new_state }

/-- The claim-side change predicate for one observer and one transition: some
declared value selector or reference selector yields different derived values
on the previous and next states (under the declared equality). -/
def obsChanged (prev next : σ) (o : Observer σ) : Bool :=
  (o.subs.subscriptions.any fun sub => decide (sub.fn next ≠ sub.fn prev)) ||
  refLoopWake prev next o.subs

/-- Well-formedness of an observer cell at the start of a notification with
previous state `prev` and allocator watermark `alloc`, as established by
declaring every value slot through `UseStoreHandle::map` and notifying on
every transition since: one cached value per value subscription, each cached
value equal to its selector applied to the previous state, selectors honestly
typed, and every cached address already allocated. -/
def ObserverWF (o : Observer σ) (prev : σ) (alloc : Nat) : Prop :=
  List.Forall₂ (fun (st : RcAny) (sub : ValSub σ) => st.2 = sub.fn prev)
    o.subs.states o.subs.subscriptions ∧
  (∀ sub ∈ o.subs.subscriptions, ∀ s, (sub.fn s).ty = sub.ty) ∧
  (∀ st ∈ o.subs.states, st.1 < alloc)

/-- Iterate the value-subscription loop for a single cache slot over a list of
successive next states: the evolution of one `map`/`watch` slot's cached
`Rc<dyn Any>` across a sequence of notifications. -/
def slotRun (sub : ValSub σ) : List σ → RcAny → Nat →
    Except String (RcAny × Nat)
  | [], st, alloc => .ok (st, alloc)
  | t :: ts, st, alloc =>
    match valLoop t [sub] [st] alloc with
    | .ok ([st'], _, a) => slotRun sub ts st' a
    | .ok _ => .error stateErrMsg
    | .error e => .error e

/-- The state whose selector image the cache is expected to hold after a run:
the last transition at which the selector's value differed from the cache, or
the declaration state `d` when no difference was ever detected.  This is the
specification's characterization of the lazy cache. -/
def lastDiffState (f : σ → DynAny) (d : σ) : List σ → σ
  | [] => d
  | t :: ts =>
    if f t = f d then lastDiffState f d ts else lastDiffState f t ts

/-- A heap of store instances: `Rc<Store<T>>` addresses mapped to the current
state held by the store at that address.  Used to express that two contexts
holding the same `Rc` observe the same state. -/
def StoreHeap (σ : Type) := Nat → σ

/-- Model of `StoreContext<T>` (context.rs lines 10-18): an `Rc<Store<T>>`
(by address) plus the three `Rc<RefCell<...>>` registries, each modelled as
its `Rc` address paired with its contents. -/
structure StoreContext (σ : Type) where
  store : Nat
  states : Nat × List RcAny
  subscriptions : Nat × List (ValSub σ)
  ref_subscriptions : Nat × List (RefSub σ)

/-- Model of `impl PartialEq for StoreContext` (context.rs lines 20-27):
`Rc::ptr_eq(&self.store, &other.store)`. -/
def StoreContext.eq (a b : StoreContext σ) : Bool :=
  a.store == b.store

/-- Model of `impl Clone for StoreContext` (context.rs lines 185-194): the
store `Rc` is cloned (same address) while the three registries are created
fresh and empty (`Rc::new(RefCell::new(vec![]))`), at new addresses `n`,
`n + 1`, `n + 2`. -/
def StoreContext.clone (c : StoreContext σ) (n : Nat) : StoreContext σ :=
  { store := c.store
    states := (n, ([] : List RcAny))
    subscriptions := (n + 1, ([] : List (ValSub σ)))
    ref_subscriptions := (n + 2, ([] : List (RefSub σ))) }

/-- Concrete subscriber environment for witnesses: callback 0 keeps itself
alive and subscribes callback 5 whenever it runs; every other callback asks to
be dropped.  No callback calls `set_state` reentrantly. -/
def envA : Nat → SubBehavior Nat := fun i =>
  if i = 0 then
    { keep := fun _ _ => true
      newSubs := fun _ _ => [5]
      nestedSet := fun _ _ => none }
  else
    { keep := fun _ _ => false
      newSubs := fun _ _ => []
      nestedSet := fun _ _ => none }

/-- Concrete subscriber environment in which callback 0 calls
`set_state 99` from inside its own notification callback. -/
def envNested : Nat → SubBehavior Nat := fun i =>
  if i = 0 then
    { keep := fun _ _ => true
      newSubs := fun _ _ => []
      nestedSet := fun _ _ => some 99 }
  else
    { keep := fun _ _ => true
      newSubs := fun _ _ => []
      nestedSet := fun _ _ => none }

/-- The store produced by `set_state envA 3` on a store holding 10 with the
single subscriber 0: callback 0 ran once with (10, 3), subscribed 5, and was
kept after the newly added 5. -/
def c2res : Store Nat := ⟨10, 3, [5, 0], [(0, 10, 3)]⟩

/-- A concrete well-formed observer: one value selector `|s| s` with cached
value 5 (the current state), active. -/
def c1obs : Observer Nat :=
  ⟨true, ⟨[(0, .vnat 5)], [⟨.tnat, fun s => .vnat s, mapMsg⟩], []⟩⟩

/-- A concrete hook store holding 5 whose only subscriber is `c1obs`. -/
def c1store : HookStore Nat := ⟨5, 5, [c1obs], 1⟩

/-- The observer `c1obs` after its component was detached. -/
def c5obs : Observer Nat := WatchState.drop c1obs

/-- A concrete hook store holding 5 whose only subscriber is the detached
observer `c5obs`. -/
def c5store : HookStore Nat := ⟨5, 5, [c5obs], 1⟩

/-- An observer whose evaluation pass declared a single
`watch(|s| s)` and nothing else, exactly as the repository's own test
component `StoreWatchComponent` (tests/common/store.rs lines 78-85) does. -/
def c7obs : Observer Nat :=
  ⟨true, UseStoreHandle.watch (fun s => .vnat s) .tnat
    (use_store_begin ⟨[], [], []⟩)⟩

/-- A concrete hook store holding 0 whose only subscriber is the watch-only
observer `c7obs`. -/
def c7store : HookStore Nat := ⟨0, 0, [c7obs], 0⟩

/-- First pass-1 selector of the declaration-mismatch scenario. -/
def c6f1 : Nat → DynAny := fun s => .vnat (s + 1)

/-- Second pass-1 selector of the declaration-mismatch scenario. -/
def c6f2 : Nat → DynAny := fun s => .vnat (2 * s)

/-- The single pass-2 selector of the declaration-mismatch scenario; of the
same derived type as `c6f1` and `c6f2` but a different function. -/
def c6g : Nat → DynAny := fun s => .vnat (s + 9)

/-- The registry after declaring `map c6f1` at state 10 on a fresh pass. -/
def c6reg1 : Subscriptions Nat :=
  ⟨[(0, .vnat 11)], [⟨.tnat, c6f1, mapMsg⟩], []⟩

/-- The registry after pass 1: `map c6f1; map c6f2` at state 10. -/
def c6reg2 : Subscriptions Nat :=
  ⟨[(0, .vnat 11), (1, .vnat 20)],
   [⟨.tnat, c6f1, mapMsg⟩, ⟨.tnat, c6f2, mapMsg⟩], []⟩

/-- The registry after pass 2, which declared only `map c6g`: both pass-1
cached values survive, while the only subscription is `c6g`'s. -/
def c6reg3 : Subscriptions Nat :=
  ⟨[(0, .vnat 11), (1, .vnat 20)], [⟨.tnat, c6g, mapMsg⟩], []⟩

/-- The registry after the notification that follows pass 2: the extra
cached value was silently dropped. -/
def c6reg4 : Subscriptions Nat :=
  ⟨[(0, .vnat 11)], [⟨.tnat, c6g, mapMsg⟩], []⟩

/-- A concrete store context: store `Rc` at address 0, registries at
addresses 1, 2, 3. -/
def c9ctx : StoreContext Nat := ⟨0, (1, []), (2, []), (3, [])⟩

/-- Reading the state of the store a context holds (`Store::state` through
the shared `Rc`). -/
def StoreContext.read (h : StoreHeap σ) (c : StoreContext σ) : σ :=
  h c.store

/-- Writing the state of the store a context holds (`Store::set_state`
through the shared `Rc`): only the store at the context's address changes. -/
def StoreContext.write (h : StoreHeap σ) (c : StoreContext σ) (v : σ) :
    StoreHeap σ :=
  fun a => if a = c.store then v else h a

/-! ## Helper lemmas -/

/-- When no taken callback calls `set_state` reentrantly, the retain loop
succeeds and its effect is fully characterized: the survivors are exactly the
callbacks returning `true`, in order; one log entry per taken callback, in
order, always with the borrowed `(previous, next)` pair; and the live list
receives exactly the callbacks subscribed along the way, in order. -/
theorem notifyLoop_spec (env : Nat → SubBehavior σ) (previous next : σ)
    (l : List Nat) :
    ∀ self : Store σ, (∀ i ∈ l, (env i).nestedSet previous next = none) →
      Store.notifyLoop env previous next l self =
        .ok (l.filter fun i => (env i).keep previous next,
          { self with
            log := self.log ++ (l.map fun i => (i, previous, next))
            subscriptions :=
              self.subscriptions ++ addedSubs env previous next l }) := by
  induction l with
  | nil =>
    intro self _
    simp [Store.notifyLoop, addedSubs]
  | cons s rest ih =>
    intro self h
    have hs : (env s).nestedSet previous next = none :=
      h s (List.mem_cons_self _ _)
    have ht : ∀ i ∈ rest, (env i).nestedSet previous next = none :=
      fun i hi => h i (List.mem_cons_of_mem _ hi)
    simp only [Store.notifyLoop, hs]
    rw [ih _ ht]
    simp only [addedSubs, List.map_cons, List.flatten_cons, List.filter_cons]
    by_cases hk : (env s).keep previous next = true <;>
      simp [hk, List.append_assoc]

/-- Whatever the callbacks do (short of a reentrant `set_state`, which aborts
the run), the retain loop never touches the state snapshots, and only appends
log entries carrying the borrowed `(previous, next)` pair. -/
theorem notifyLoop_ok (env : Nat → SubBehavior σ) (previous next : σ)
    (l : List Nat) :
    ∀ (self : Store σ) (kept : List Nat) (self' : Store σ),
      Store.notifyLoop env previous next l self = .ok (kept, self') →
      self'.state = self.state ∧
      self'.previous_state = self.previous_state ∧
      ∃ tail, self'.log = self.log ++ tail ∧
        ∀ e ∈ tail, e.2 = (previous, next) := by
  induction l with
  | nil =>
    intro self kept self' h
    simp only [Store.notifyLoop, Except.ok.injEq, Prod.mk.injEq] at h
    obtain ⟨-, rfl⟩ := h
    exact ⟨rfl, rfl, [], by simp⟩
  | cons s rest ih =>
    intro self kept self' h
    simp only [Store.notifyLoop] at h
    cases hn : (env s).nestedSet previous next with
    | some v => rw [hn] at h; exact absurd h (by simp)
    | none =>
      rw [hn] at h
      cases hrec : Store.notifyLoop env previous next rest
          { self with
            log := self.log ++ [(s, previous, next)]
            subscriptions :=
              self.subscriptions ++ (env s).newSubs previous next } with
      | error e => rw [hrec] at h; exact absurd h (by simp)
      | ok p =>
        obtain ⟨k2, s2⟩ := p
        rw [hrec] at h
        simp only [Except.ok.injEq, Prod.mk.injEq] at h
        obtain ⟨-, rfl⟩ := h
        obtain ⟨h1, h2, tail, h3, h4⟩ := ih _ _ _ hrec
        refine ⟨h1, h2, (s, previous, next) :: tail, ?_, ?_⟩
        · simpa [List.append_assoc] using h3
        · intro e he
          rcases List.mem_cons.mp he with rfl | he'
          · rfl
          · exact h4 e he'

/-- Full characterization of a successful `set_state` (no reentrant writes):
the snapshots rotate, each subscriber present at notification start is
invoked exactly once, in order, with the old current state as `previous` and
the new state as `next`, the survivors are exactly the callbacks that
returned `true`, and the callbacks subscribed during the pass end up on the
list without having been invoked. -/
theorem set_state_spec (env : Nat → SubBehavior σ) (self : Store σ) (s₁ : σ)
    (h : ∀ i ∈ self.subscriptions, (env i).nestedSet self.state s₁ = none) :
    Store.set_state env self s₁ =
      .ok { previous_state := self.state
            state := s₁
            subscriptions :=
              addedSubs env self.state s₁ self.subscriptions ++
                (self.subscriptions.filter fun i => (env i).keep self.state s₁)
            log := self.log ++
              (self.subscriptions.map fun i => (i, self.state, s₁)) } := by
  simp only [Store.set_state, Store.notify]
  rw [notifyLoop_spec env self.state s₁ self.subscriptions _ h]
  simp

/-- A successful `set_state` installs the new state, rotates the old current
state into `previous_state`, and logs only invocations carrying that pair. -/
theorem set_state_ok (env : Nat → SubBehavior σ) (self : Store σ) (s₁ : σ)
    (self' : Store σ) (h : Store.set_state env self s₁ = .ok self') :
    self'.state = s₁ ∧ self'.previous_state = self.state ∧
    ∃ tail, self'.log = self.log ++ tail ∧
      ∀ e ∈ tail, e.2 = (self.state, s₁) := by
  simp only [Store.set_state, Store.notify] at h
  cases hrec : Store.notifyLoop env self.state s₁ self.subscriptions
      { self with previous_state := self.state, state := s₁,
                  subscriptions := [] } with
  | error e => rw [hrec] at h; exact absurd h (by simp)
  | ok p =>
    obtain ⟨kept, s2⟩ := p
    rw [hrec] at h
    simp only [Except.ok.injEq] at h
    obtain ⟨h1, h2, tail, h3, h4⟩ := notifyLoop_ok env _ _ _ _ _ _ hrec
    subst h
    exact ⟨h1, h2, tail, h3, h4⟩

/-- The watermark in an observer's well-formedness is monotone: every cached
address below `a` is below any `b ≥ a`. -/
theorem ObserverWF.mono (o : Observer σ) (prev : σ) (a b : Nat) (hab : a ≤ b)
    (h : ObserverWF o prev a) : ObserverWF o prev b :=
  ⟨h.1, h.2.1, fun st hst => lt_of_lt_of_le (h.2.2 st hst) hab⟩

/-- Characterization of the value-subscription loop when every slot has a
cached value equal to its selector at the previous state (the steady-state
invariant), the selectors are honestly typed, and every cached address is
below the allocator watermark: the loop succeeds, `require_render` is set
exactly when some selector's value differs between the previous and next
states, and the new cache satisfies the invariant at the next state. -/
theorem valLoop_spec (next prev : σ) :
    ∀ (subsList : List (ValSub σ)) (states : List RcAny) (alloc : Nat),
    List.Forall₂ (fun (st : RcAny) (sub : ValSub σ) => st.2 = sub.fn prev)
      states subsList →
    (∀ sub ∈ subsList, ∀ s, (sub.fn s).ty = sub.ty) →
    (∀ st ∈ states, st.1 < alloc) →
    ∃ sts a,
      valLoop next subsList states alloc =
        .ok (sts,
          subsList.any fun sub => decide (sub.fn next ≠ sub.fn prev), a) ∧
      alloc ≤ a ∧
      List.Forall₂ (fun (st : RcAny) (sub : ValSub σ) => st.2 = sub.fn next)
        sts subsList ∧
      ∀ st ∈ sts, st.1 < a := by
  intro subsList
  induction subsList with
  | nil =>
    intro states alloc hf _ _
    cases hf
    exact ⟨[], alloc, by simp [valLoop], le_refl _, List.Forall₂.nil, by simp⟩
  | cons sub rest ih =>
    intro states alloc hf hwt haddr
    cases hf with
    | cons h1 h2 =>
      rename_i st stRest
      have hty : st.2.ty = sub.ty := by
        rw [h1]; exact hwt sub (List.mem_cons_self _ _) prev
      have hwt' : ∀ s ∈ rest, ∀ x, (s.fn x).ty = s.ty :=
        fun s hs => hwt s (List.mem_cons_of_mem _ hs)
      by_cases heq : sub.fn next = st.2
      · have hch : (decide (sub.fn next ≠ sub.fn prev)) = false := by
          simp [heq, h1]
        have hdec : (decide (st.1 ≠ st.1)) = false := by simp
        obtain ⟨sts, a, hval, hle, hfor, haddrs⟩ := ih stRest alloc h2 hwt'
          (fun s hs => haddr s (List.mem_cons_of_mem _ hs))
        refine ⟨st :: sts, a, ?_, hle, List.Forall₂.cons (heq ▸ rfl) hfor, ?_⟩
        · simp only [valLoop, if_pos hty, if_pos heq]
          rw [hval]
          simp only [List.any_cons, hch, hdec, Bool.false_or]
        · intro s hs
          rcases List.mem_cons.mp hs with rfl | hs'
          · exact lt_of_lt_of_le (haddr s (List.mem_cons_self _ _)) hle
          · exact haddrs s hs'
      · have hch : (decide (sub.fn next ≠ sub.fn prev)) = true := by
          rw [← h1]; simpa using heq
        obtain ⟨sts, a, hval, hle, hfor, haddrs⟩ := ih stRest (alloc + 1) h2
          hwt' (fun s hs =>
            Nat.lt_succ_of_lt (haddr s (List.mem_cons_of_mem _ hs)))
        have hane : (decide (st.1 ≠ alloc)) = true := by
          simp [Nat.ne_of_lt (haddr st (List.mem_cons_self _ _))]
        refine ⟨(alloc, sub.fn next) :: sts, a,
          ?_, le_trans (Nat.le_succ _) hle,
          List.Forall₂.cons rfl hfor, ?_⟩
        · simp only [valLoop, if_pos hty, if_neg heq]
          rw [hval]
          simp only [List.any_cons, hch, hane, Bool.true_or]
        · intro s hs
          rcases List.mem_cons.mp hs with rfl | hs'
          · exact lt_of_lt_of_le (Nat.lt_succ_self _) hle
          · exact haddrs s hs'

/-- Characterization of one invocation of the raw subscriber closure on an
active, well-formed observer: no panic, the closure returns `true`, the wake
callback is invoked exactly once when some declared selector's derived value
differs between the previous and next states and zero times otherwise, the
declared selector lists are untouched, and the cache invariant moves to the
next state. -/
theorem subscriber_spec (prev next : σ) (o : Observer σ) (alloc : Nat)
    (hact : o.is_active = true) (hwf : ObserverWF o prev alloc) :
    ∃ (o' : Observer σ) (a : Nat),
      use_store_subscriber prev next o alloc =
        .ok ⟨true, if obsChanged prev next o then 1 else 0, o', a⟩ ∧
      alloc ≤ a ∧ o'.is_active = true ∧
      o'.subs.subscriptions = o.subs.subscriptions ∧
      o'.subs.ref_subscriptions = o.subs.ref_subscriptions ∧
      List.Forall₂ (fun (st : RcAny) (sub : ValSub σ) => st.2 = sub.fn next)
        o'.subs.states o'.subs.subscriptions ∧
      ∀ st ∈ o'.subs.states, st.1 < a := by
  obtain ⟨hf, hwt, haddr⟩ := hwf
  obtain ⟨oact, sts0, sl, rl⟩ := o
  replace hact : oact = true := hact
  subst hact
  simp only at hf hwt haddr ⊢
  cases sl with
  | nil =>
    have hstates : sts0 = [] := by cases hf; rfl
    subst hstates
    refine ⟨⟨true, [], [], rl⟩, alloc, ?_, le_refl _, rfl, rfl, rfl,
      List.Forall₂.nil, by simp⟩
    show (match refLoopWake prev next ⟨[], [], rl⟩ with
      | true => Except.ok (⟨true, 1, ⟨true, [], [], rl⟩, alloc⟩ : SubResult σ)
      | false => .ok ⟨true, 0, ⟨true, [], [], rl⟩, alloc⟩) =
      .ok ⟨true, if obsChanged prev next ⟨true, [], [], rl⟩ then 1 else 0,
        ⟨true, [], [], rl⟩, alloc⟩
    have hchg : obsChanged prev next ⟨true, ([] : List RcAny),
        ([] : List (ValSub σ)), rl⟩ = refLoopWake prev next ⟨[], [], rl⟩ := by
      simp [obsChanged]
    rw [hchg]
    cases refLoopWake prev next (⟨[], [], rl⟩ : Subscriptions σ) <;> rfl
  | cons sub₀ subsRest =>
    obtain ⟨sts, a, hval, hle, hfor, haddrs⟩ :=
      valLoop_spec next prev (sub₀ :: subsRest) sts0 alloc hf hwt haddr
    refine ⟨⟨true, sts, sub₀ :: subsRest, rl⟩, a, ?_, hle, rfl, rfl, rfl,
      hfor, haddrs⟩
    show (match valLoop next (sub₀ :: subsRest) sts0 alloc with
      | .error e => (Except.error e : Except String (SubResult σ))
      | .ok (next_states, require_render, alloc') =>
        match require_render,
            refLoopWake prev next ⟨next_states, sub₀ :: subsRest, rl⟩ with
        | true, _ =>
          Except.ok (⟨true, 1, ⟨true, next_states, sub₀ :: subsRest, rl⟩,
            alloc'⟩ : SubResult σ)
        | false, true =>
          .ok ⟨true, 1, ⟨true, next_states, sub₀ :: subsRest, rl⟩, alloc'⟩
        | false, false =>
          .ok ⟨true, 0, ⟨true, next_states, sub₀ :: subsRest, rl⟩, alloc'⟩) =
      .ok ⟨true,
        if obsChanged prev next ⟨true, sts0, sub₀ :: subsRest, rl⟩ then 1
        else 0,
        ⟨true, sts, sub₀ :: subsRest, rl⟩, a⟩
    have hrlrw : refLoopWake prev next
        (⟨sts0, sub₀ :: subsRest, rl⟩ : Subscriptions σ) =
        refLoopWake prev next ⟨sts, sub₀ :: subsRest, rl⟩ := rfl
    have hchg : obsChanged prev next
        (⟨true, sts0, sub₀ :: subsRest, rl⟩ : Observer σ) =
        (((sub₀ :: subsRest).any fun sub =>
          decide (sub.fn next ≠ sub.fn prev)) ||
          refLoopWake prev next ⟨sts0, sub₀ :: subsRest, rl⟩) := rfl
    rw [hchg, hrlrw]
    cases hany : ((sub₀ :: subsRest).any fun sub =>
        decide (sub.fn next ≠ sub.fn prev)) <;>
      rw [hany] at hval <;> rw [hval] <;>
      cases hrl : refLoopWake prev next
        (⟨sts, sub₀ :: subsRest, rl⟩ : Subscriptions σ) <;>
      simp [hrl]

/-- The raw subscriber closure of a detached observer performs no work: it
returns `false` without waking, without touching the observer cell or the
allocator — whatever selectors are declared. -/
theorem subscriber_inactive (prev next : σ) (o : Observer σ)
    (h : o.is_active = false) (alloc : Nat) :
    use_store_subscriber prev next o alloc = .ok ⟨false, 0, o, alloc⟩ := by
  obtain ⟨oa, os⟩ := o
  replace h : oa = false := h
  subst h
  rfl

/-- A filter by a predicate that fails somewhere in the list is strictly
shorter than the list. -/
theorem filter_length_lt (p : α → Bool) :
    ∀ (l : List α), (∃ x ∈ l, p x = false) →
      (l.filter p).length < l.length := by
  intro l
  induction l with
  | nil => rintro ⟨x, hx, -⟩; cases hx
  | cons y rest ih =>
    rintro ⟨x, hx, hpx⟩
    rcases List.mem_cons.mp hx with rfl | hx'
    · rw [List.filter_cons, hpx]
      exact Nat.lt_succ_of_le (List.length_filter_le _ _)
    · rw [List.filter_cons]
      cases hpy : p y
      · exact Nat.lt_succ_of_lt (ih ⟨x, hx', hpx⟩)
      · simpa using Nat.succ_lt_succ (ih ⟨x, hx', hpx⟩)

/-- Characterization of the notify retain loop over observer closures, when
every active observer is well-formed: the loop succeeds, each observer closure
in the taken list runs once, an active observer is woken exactly once when one
of its selectors' derived values changed and kept alive, a detached observer
is not woken, performs no work and is dropped; the number of survivors is the
number of active observers. -/
theorem hookNotifyLoop_spec (prev next : σ) :
    ∀ (l : List (Observer σ)) (alloc : Nat),
    (∀ o ∈ l, o.is_active = true → ObserverWF o prev alloc) →
    ∃ (results : List (Bool × Nat × Observer σ)) (a : Nat),
      hookNotifyLoop prev next l alloc = .ok (results, a) ∧
      alloc ≤ a ∧
      (results.map fun r => r.2.1) =
        (l.map fun o =>
          if o.is_active then (if obsChanged prev next o then 1 else 0)
          else 0) ∧
      (results.map fun r => r.1) = (l.map fun o => o.is_active) ∧
      (results.filter fun r => r.1).length =
        (l.filter fun o => o.is_active).length := by
  intro l
  induction l with
  | nil =>
    intro alloc _
    exact ⟨[], alloc, rfl, le_refl _, rfl, rfl, rfl⟩
  | cons o rest ih =>
    intro alloc h
    cases hoa : o.is_active with
    | true =>
      obtain ⟨o', a1, hsub, hle1, -, -, -, -, -⟩ :=
        subscriber_spec prev next o alloc hoa
          (h o (List.mem_cons_self _ _) hoa)
      obtain ⟨results, a, hloop, hle2, hw, hk, hf⟩ := ih a1
        (fun ob hob hact => ObserverWF.mono ob prev alloc a1 hle1
          (h ob (List.mem_cons_of_mem _ hob) hact))
      refine ⟨(true, if obsChanged prev next o then 1 else 0, o') :: results,
        a, ?_, le_trans hle1 hle2, ?_, ?_, ?_⟩
      · simp only [hookNotifyLoop]
        rw [hsub]
        simp only [hloop]
      · simp [hw, hoa]
      · simp [hk, hoa]
      · simp only [List.filter_cons, hoa]
        simp [hf]
    | false =>
      have hsub := subscriber_inactive prev next o hoa alloc
      obtain ⟨results, a, hloop, hle2, hw, hk, hf⟩ := ih alloc
        (fun ob hob hact => h ob (List.mem_cons_of_mem _ hob) hact)
      refine ⟨(false, 0, o) :: results, a, ?_, hle2, ?_, ?_, ?_⟩
      · simp only [hookNotifyLoop]
        rw [hsub]
        simp only [hloop]
      · simp [hw, hoa]
      · simp [hk, hoa]
      · simp only [List.filter_cons, hoa]
        simp [hf]

/-! ## Claims -/

/-- Claim C2: `Store::new i` sets both snapshots to `i`, so `state()` returns
`i`; and whenever `set_state s₁` completes, `state()` returns `s₁`, the
previous snapshot is the value that was current just before the call, and
every subscriber invocation logged during that call received exactly that
(previous, next) pair. -/
theorem claim_C2 :
    (∀ (σ : Type) (i : σ),
      (Store.new i).state = i ∧ (Store.new i).previous_state = i) ∧
    (∀ (σ : Type) (env : Nat → SubBehavior σ) (self : Store σ) (s₁ : σ)
      (self' : Store σ), Store.set_state env self s₁ = .ok self' →
      self'.state = s₁ ∧ self'.previous_state = self.state ∧
      ∀ e ∈ self'.log.drop self.log.length, e.2 = (self.state, s₁)) := by
  constructor
  · exact fun σ i => ⟨rfl, rfl⟩
  · intro σ env self s₁ self' h
    obtain ⟨h1, h2, tail, h3, h4⟩ := set_state_ok env self s₁ self' h
    refine ⟨h1, h2, ?_⟩
    intro e he
    rw [h3, List.drop_left] at he
    exact h4 e he

/-- Witness for C2 at a concrete input: a store holding 10 with subscriber 0,
written to 3. -/
theorem claim_C2_w :
    c2res.state = 3 ∧
    c2res.previous_state = ((Store.new 10).subscribe 0).state ∧
    ∀ e ∈ c2res.log.drop ((Store.new 10).subscribe 0).log.length,
      e.2 = (((Store.new 10).subscribe 0).state, 3) :=
  claim_C2.2 Nat envA ((Store.new 10).subscribe 0) 3 c2res rfl

/-- Claim C4: on a completing `set_state`, each subscriber present when the
notification starts is called exactly once with (previous, next), in
subscription order (the log is exactly the pre-notification list, mapped), a
subscriber is retained if and only if its callback returned `true`, and a
subscriber added during the notification is on the list for the next
transition but was not called for this one. -/
theorem claim_C4 (σ : Type) (env : Nat → SubBehavior σ) (self : Store σ)
    (s₁ : σ)
    (h : ∀ i ∈ self.subscriptions, (env i).nestedSet self.state s₁ = none) :
    Store.set_state env self s₁ =
      .ok { previous_state := self.state
            state := s₁
            subscriptions :=
              addedSubs env self.state s₁ self.subscriptions ++
                (self.subscriptions.filter fun i =>
                  (env i).keep self.state s₁)
            log := self.log ++
              (self.subscriptions.map fun i => (i, self.state, s₁)) } ∧
    ∀ j ∈ addedSubs env self.state s₁ self.subscriptions,
      j ∉ self.subscriptions → ∀ p n,
        (j, p, n) ∉ (self.subscriptions.map fun i => (i, self.state, s₁)) := by
  refine ⟨set_state_spec env self s₁ h, ?_⟩
  intro j _ hj p n hmem
  obtain ⟨i, hi, hie⟩ := List.mem_map.mp hmem
  obtain ⟨rfl, -⟩ := Prod.mk.injEq .. ▸ hie
  exact hj hi

/-- Witness for C4 at a concrete input: a store holding 10 with subscribers
0 (keeps alive, subscribes 5) and 1 (asks to be dropped), written to 3. -/
theorem claim_C4_w :
    Store.set_state envA (((Store.new 10).subscribe 0).subscribe 1) 3 =
      .ok ⟨10, 3, [5, 0], [(0, 10, 3), (1, 10, 3)]⟩ := by
  have h := claim_C4 Nat envA (((Store.new 10).subscribe 0).subscribe 1) 3
    (by decide)
  exact h.1.trans (by rfl)

/-- Claim C3 (code bug): a subscriber calling `set_state` from inside its own
notification callback does not complete — `Store::notify` holds shared `Ref`
borrows of `state` and `previous_state` across the retain loop (store.rs
lines 79-81), so the nested `set_state`'s `state.borrow_mut()` (store.rs line
54) panics with the `RefCell` borrow error instead of completing and letting
the remaining subscribers of the outer pass observe the final state. -/
theorem claim_C3 :
    Store.set_state envNested (((Store.new 0).subscribe 0).subscribe 1) 1 =
      .error "already borrowed: BorrowMutError" := rfl

/-- Claim C10: `Store::subscribe` only appends the callback: the snapshots
and the invocation log are unchanged (the callback is not invoked), and the
callback runs for the first time during the notification of the very next
completing `set_state`. -/
theorem claim_C10 (σ : Type) (env : Nat → SubBehavior σ) (self : Store σ)
    (c : Nat) (s₁ : σ)
    (h : ∀ i ∈ (self.subscribe c).subscriptions,
      (env i).nestedSet self.state s₁ = none) :
    (self.subscribe c).state = self.state ∧
    (self.subscribe c).previous_state = self.previous_state ∧
    (self.subscribe c).subscriptions = self.subscriptions ++ [c] ∧
    (self.subscribe c).log = self.log ∧
    ∃ self', Store.set_state env (self.subscribe c) s₁ = .ok self' ∧
      (c, self.state, s₁) ∈ self'.log := by
  refine ⟨rfl, rfl, rfl, rfl, _, set_state_spec env (self.subscribe c) s₁ h, ?_⟩
  simp [Store.subscribe]

/-- Witness for C10 at a concrete input: subscribing callback 0 to a fresh
store holding 10, then writing 3. -/
theorem claim_C10_w :
    ((Store.new 10).subscribe 0).state = (Store.new 10).state ∧
    ((Store.new 10).subscribe 0).previous_state =
      (Store.new 10).previous_state ∧
    ((Store.new 10).subscribe 0).subscriptions =
      (Store.new 10).subscriptions ++ [0] ∧
    ((Store.new 10).subscribe 0).log = (Store.new 10).log ∧
    ∃ self', Store.set_state envA ((Store.new 10).subscribe 0) 3 = .ok self' ∧
      (0, (Store.new 10).state, 3) ∈ self'.log :=
  claim_C10 Nat envA (Store.new 10) 0 3 (by decide)

/-- Claim C1: on a `set_state` transition, each attached well-formed observer
is woken exactly once when at least one of its declared selectors (value or
reference) yields a derived value that differs, under the declared equality,
between the previous and the next state, and zero times when every selector's
derived value is unchanged.  Well-formedness is the steady-state configuration
produced by declaring every value slot through `map` and having been notified
on every transition since (each cached value equals its selector at the
previous state). -/
theorem claim_C1 (σ : Type) (st : HookStore σ) (s₁ : σ)
    (hwf : ∀ o ∈ st.subscriptions,
      o.is_active = true ∧ ObserverWF o st.state st.alloc) :
    ∃ st' wakes, HookStore.set_state st s₁ = .ok (st', wakes) ∧
      wakes = st.subscriptions.map
        fun o => if obsChanged st.state s₁ o then 1 else 0 := by
  obtain ⟨results, a, hloop, -, hw, -, -⟩ :=
    hookNotifyLoop_spec st.state s₁ st.subscriptions st.alloc
      (fun o ho _ => (hwf o ho).2)
  refine ⟨⟨st.state, s₁,
    (results.filter fun r => r.1).map fun r => r.2.2, a⟩,
    results.map fun r => r.2.1, ?_, ?_⟩
  · simp only [HookStore.set_state, HookStore.notify]
    rw [hloop]
  · rw [hw]
    exact List.map_congr_left fun o ho => by simp [(hwf o ho).1]

/-- Witness for C1 at a concrete input: a store holding 5 with one attached
observer selecting `|s| s` (cached value 5), written to 6 — the selector's
value changes, so the observer is woken exactly once. -/
theorem claim_C1_w :
    ∃ st' wakes, HookStore.set_state c1store 6 = .ok (st', wakes) ∧
      wakes = c1store.subscriptions.map
        fun o => if obsChanged c1store.state 6 o then 1 else 0 :=
  claim_C1 Nat c1store 6 (by
    intro o ho
    replace ho : o = c1obs := by simpa [c1store] using ho
    subst ho
    refine ⟨rfl, List.Forall₂.cons rfl List.Forall₂.nil, ?_, by decide⟩
    intro sub hsub s
    replace hsub : sub = ⟨.tnat, fun s => .vnat s, mapMsg⟩ := by
      simpa [c1obs] using hsub
    subst hsub
    rfl)

/-- Claim C5: detaching an observer flips its shared active flag; from then
on its raw subscriber closure performs no work at all — it never wakes the
observer, never evaluates any selector (its result is `false` with the cell
untouched, whatever selectors are declared), and at the first notification
after the detach the raw entry is pruned from the store's subscriber list,
whose length strictly decreases. -/
theorem claim_C5 (σ : Type) (st : HookStore σ) (s₁ : σ) (k : Nat)
    (hk : k < st.subscriptions.length)
    (hinact : (st.subscriptions.get ⟨k, hk⟩).is_active = false)
    (hwf : ∀ o ∈ st.subscriptions, o.is_active = true →
      ObserverWF o st.state st.alloc) :
    (∀ o : Observer σ, (WatchState.drop o).is_active = false) ∧
    (∀ (prev next : σ) (o : Observer σ), o.is_active = false → ∀ alloc,
      use_store_subscriber prev next o alloc = .ok ⟨false, 0, o, alloc⟩) ∧
    ∃ st' wakes, HookStore.set_state st s₁ = .ok (st', wakes) ∧
      wakes[k]? = some 0 ∧
      st'.subscriptions.length < st.subscriptions.length := by
  refine ⟨fun o => rfl,
    fun prev next o ho alloc => subscriber_inactive prev next o ho alloc, ?_⟩
  obtain ⟨results, a, hloop, -, hw, -, hf⟩ :=
    hookNotifyLoop_spec st.state s₁ st.subscriptions st.alloc hwf
  refine ⟨⟨st.state, s₁,
    (results.filter fun r => r.1).map fun r => r.2.2, a⟩,
    results.map fun r => r.2.1, ?_, ?_, ?_⟩
  · simp only [HookStore.set_state, HookStore.notify]
    rw [hloop]
  · rw [hw, List.getElem?_map, List.getElem?_eq_getElem hk]
    rw [List.get_eq_getElem] at hinact
    simp [hinact]
  · rw [List.length_map, hf]
    exact filter_length_lt _ _ ⟨st.subscriptions.get ⟨k, hk⟩,
      List.get_mem _ _ _, hinact⟩

/-- Witness for C5 at a concrete input: a store holding 5 whose only
subscriber is a detached observer; writing 6 wakes nobody and shrinks the
subscriber list from 1 to 0. -/
theorem claim_C5_w :
    (∀ o : Observer Nat, (WatchState.drop o).is_active = false) ∧
    (∀ (prev next : Nat) (o : Observer Nat), o.is_active = false → ∀ alloc,
      use_store_subscriber prev next o alloc = .ok ⟨false, 0, o, alloc⟩) ∧
    ∃ st' wakes, HookStore.set_state c5store 6 = .ok (st', wakes) ∧
      wakes[0]? = some 0 ∧
      st'.subscriptions.length < c5store.subscriptions.length :=
  claim_C5 Nat c5store 6 0 (by decide) (by decide) (by
    intro o ho hact
    replace ho : o = c5obs := by simpa [c5store] using ho
    subst ho
    exact absurd hact (by decide))

/-- Claim C7 (code bug): an observer whose evaluation pass declares only
`watch(select)` does not behave like `map(select)` — `watch` pushes a value
subscription but never creates the cached state for its slot (handle.rs lines
149-163), so the very first notification hits the
`states.get(i).expect("Store subscription has no corresponding state.")`
panic (mod.rs lines 86-89) instead of completing and waking on change.  The
repository's own test component `StoreWatchComponent`
(tests/store_watch.rs) expects the notification to complete and re-render on
change. -/
theorem claim_C7 : HookStore.set_state c7store 1 = .error stateErrMsg := rfl

/-- Counterexample to claim C6: declaring two same-typed value selectors in
pass 1 (at state 10) and then a single, different selector in pass 2 raises
no failure anywhere — the pass-2 `map` succeeds (and even returns the cached
value computed by the pass-1 selector at position 0), the next notification
also succeeds, and it silently compares the pass-2 selector's output against
the pass-1 selector's cached value: no wake occurs on the 10 → 2 transition
even though the declared selector's value changed (c6g 10 ≠ c6g 2). -/
theorem claim_C6_cex :
    UseStoreHandle.map c6f1 .tnat 10 ⟨[], [], []⟩ 0 =
      .ok ((0, .vnat 11), c6reg1, 1) ∧
    UseStoreHandle.map c6f2 .tnat 10 c6reg1 1 =
      .ok ((1, .vnat 20), c6reg2, 2) ∧
    UseStoreHandle.map c6g .tnat 10 (use_store_begin c6reg2) 2 =
      .ok ((0, .vnat 11), c6reg3, 2) ∧
    HookStore.set_state ⟨9, 10, [⟨true, c6reg3⟩], 2⟩ 2 =
      .ok (⟨10, 2, [⟨true, c6reg4⟩], 2⟩, [0]) ∧
    c6g 10 ≠ c6g 2 :=
  ⟨rfl, rfl, rfl, rfl, by decide⟩

/-- Claim C6 (amended): the only declaration mismatch the implementation
detects is a derived-type mismatch at a slot — when the cached value at the
declaring position has a different dynamic type, `map` panics at declaration
time with "Store map was called in a different order.".  A changed number of
same-typed selectors is not detected (see the counterexample): the extra
cached entries are dropped silently and each pass-2 selector is compared
against the cached value at its position, which may come from a different
pass-1 selector. -/
theorem claim_C6 (σ : Type) (f : σ → DynAny) (ty : Ty) (cur : σ)
    (s : Subscriptions σ) (alloc : Nat) (st : RcAny)
    (hslot : s.states[s.subscriptions.length]? = some st)
    (hty : st.2.ty ≠ ty) :
    UseStoreHandle.map f ty cur s alloc = .error mapMsg := by
  simp only [UseStoreHandle.map, hslot]
  rw [if_neg hty]

/-- Witness for the amended C6 at a concrete input: a slot cached as a `Nat`
value, re-declared as a `Bool` selector, panics at declaration. -/
theorem claim_C6_w :
    UseStoreHandle.map (fun _ => DynAny.vbool true) .tbool 0
      (⟨[(0, .vnat 3)], [], []⟩ : Subscriptions Nat) 7 = .error mapMsg :=
  claim_C6 Nat (fun _ => DynAny.vbool true) .tbool 0
    ⟨[(0, .vnat 3)], [], []⟩ 7 (0, .vnat 3) rfl (by decide)

/-- The evolution of one value slot's cache across a run of notifications:
the cached value always equals the selector applied to the state at which a
difference was last detected, or to the declaration-time state when no
difference was ever detected. -/
theorem slotRun_spec (sub : ValSub σ) (hwt : ∀ s, (sub.fn s).ty = sub.ty) :
    ∀ (ts : List σ) (d : σ) (st : RcAny) (alloc : Nat), st.2 = sub.fn d →
    ∃ addr a, slotRun sub ts st alloc =
      .ok ((addr, sub.fn (lastDiffState sub.fn d ts)), a) := by
  intro ts
  induction ts with
  | nil =>
    intro d st alloc hst
    exact ⟨st.1, alloc, by
      simp only [slotRun, lastDiffState]
      rw [← hst]⟩
  | cons t ts ih =>
    intro d st alloc hst
    have hty : st.2.ty = sub.ty := by rw [hst]; exact hwt d
    by_cases heq : sub.fn t = st.2
    · have hfd : sub.fn t = sub.fn d := by rw [heq, hst]
      have hv : valLoop t [sub] [st] alloc =
          .ok ([st], decide (st.1 ≠ st.1) || false, alloc) := by
        simp only [valLoop, if_pos hty, if_pos heq]
      have hld : lastDiffState sub.fn d (t :: ts) =
          lastDiffState sub.fn d ts := by
        simp [lastDiffState, hfd]
      obtain ⟨addr, a, hrun⟩ := ih d st alloc hst
      refine ⟨addr, a, ?_⟩
      simp only [slotRun]
      rw [hv, hld]
      exact hrun
    · have hfd : sub.fn t ≠ sub.fn d := fun hc => heq (hc.trans hst.symm)
      have hv : valLoop t [sub] [st] alloc =
          .ok ([(alloc, sub.fn t)], decide (st.1 ≠ alloc) || false,
            alloc + 1) := by
        simp only [valLoop, if_pos hty, if_neg heq]
      have hld : lastDiffState sub.fn d (t :: ts) =
          lastDiffState sub.fn t ts := by
        simp [lastDiffState, hfd]
      obtain ⟨addr, a, hrun⟩ := ih t (alloc, sub.fn t) (alloc + 1) rfl
      refine ⟨addr, a, ?_⟩
      simp only [slotRun]
      rw [hv, hld]
      exact hrun

/-- Claim C8: the lazy value-selector cache.  (1) When the slot already has a
cached value of the declared type, `map` returns exactly that cached
`Rc<dyn Any>` (same address: shared reference, no fresh allocation) and
leaves the cache and allocator untouched; the returned value is independent
of the selector and of the current state, i.e. the selector is not
re-invoked.  (2) On notification, the slot's cache entry is replaced — by a
freshly allocated value of the selector at the next state — exactly when that
value differs from the cached one, and is returned untouched (same address)
otherwise.  (3) Across any run of notifications, the cached value equals the
selector applied to the state at which a difference was last detected, or to
the declaration state if none ever was. -/
theorem claim_C8 :
    (∀ (σ : Type) (f g : σ → DynAny) (ty : Ty) (cur cur' : σ)
      (s : Subscriptions σ) (alloc : Nat) (st : RcAny),
      s.states[s.subscriptions.length]? = some st → st.2.ty = ty →
      UseStoreHandle.map f ty cur s alloc =
        .ok (st,
          { s with subscriptions := s.subscriptions ++ [⟨ty, f, mapMsg⟩] },
          alloc) ∧
      (UseStoreHandle.map f ty cur s alloc).map (fun r => r.1) =
        (UseStoreHandle.map g ty cur' s alloc).map (fun r => r.1)) ∧
    (∀ (σ : Type) (sub : ValSub σ) (st : RcAny) (next : σ) (alloc : Nat),
      (sub.fn next).ty = sub.ty → st.2.ty = sub.ty → st.1 < alloc →
      valLoop next [sub] [st] alloc =
        if sub.fn next = st.2 then .ok ([st], false, alloc)
        else .ok ([(alloc, sub.fn next)], true, alloc + 1)) ∧
    (∀ (σ : Type) (sub : ValSub σ), (∀ s, (sub.fn s).ty = sub.ty) →
      ∀ (d : σ) (ts : List σ) (a₀ alloc : Nat),
      ∃ addr a, slotRun sub ts (a₀, sub.fn d) alloc =
        .ok ((addr, sub.fn (lastDiffState sub.fn d ts)), a)) := by
  refine ⟨?_, ?_, ?_⟩
  · intro σ f g ty cur cur' s alloc st hslot hty
    constructor
    · simp only [UseStoreHandle.map, hslot]
      rw [if_pos hty]
    · simp only [UseStoreHandle.map, hslot, if_pos hty, Except.map]
  · intro σ sub st next alloc htyn hty hlt
    by_cases heq : sub.fn next = st.2
    · rw [if_pos heq]
      simp only [valLoop, if_pos hty, if_pos heq]
      simp
    · rw [if_neg heq]
      simp only [valLoop, if_pos hty, if_neg heq]
      simp [Nat.ne_of_lt hlt]
  · intro σ sub hwt d ts a₀ alloc
    exact slotRun_spec sub hwt ts d (a₀, sub.fn d) alloc rfl

/-- Witness for C8 at concrete inputs: a cached slot re-declared on a later
pass returns the cached value for any selector; a single-slot notification
step at a differing next state allocates fresh; a run over transitions
10, 4, 4 from declaration state 7 caches the selector at the last detected
difference. -/
theorem claim_C8_w :
    UseStoreHandle.map c6g .tnat 3 (use_store_begin c6reg1) 5 =
      .ok ((0, .vnat 11),
        { use_store_begin c6reg1 with
          subscriptions :=
            (use_store_begin c6reg1).subscriptions ++
              [⟨.tnat, c6g, mapMsg⟩] }, 5) ∧
    (UseStoreHandle.map c6g .tnat 3 (use_store_begin c6reg1) 5).map
        (fun r => r.1) =
      (UseStoreHandle.map c6f2 .tnat 4 (use_store_begin c6reg1) 5).map
        (fun r => r.1) ∧
    valLoop 3 [⟨.tnat, c6f1, mapMsg⟩] [(0, DynAny.vnat 11)] 1 =
      (if c6f1 3 = (DynAny.vnat 11) then .ok ([(0, .vnat 11)], false, 1)
       else .ok ([(1, c6f1 3)], true, 2)) ∧
    ∃ addr a, slotRun ⟨.tnat, c6f1, mapMsg⟩ [10, 4, 4] (0, c6f1 7) 1 =
      .ok ((addr, c6f1 (lastDiffState c6f1 7 [10, 4, 4])), a) := by
  have h1 := claim_C8.1 Nat c6g c6f2 .tnat 3 4 (use_store_begin c6reg1) 5
    (0, .vnat 11) rfl rfl
  have h2 := claim_C8.2.1 Nat ⟨.tnat, c6f1, mapMsg⟩ (0, .vnat 11) 3 1
    rfl rfl (by decide)
  have h3 := claim_C8.2.2 Nat ⟨.tnat, c6f1, mapMsg⟩ (fun s => rfl) 7
    [10, 4, 4] 0 1
  exact ⟨h1.1, h1.2, h2, h3⟩

/-- Claim C9: two `StoreContext`s compare equal exactly when they hold the
same `Store` instance (pointer identity of the `Rc`); `clone` yields a
context equal to the original that shares its store — reads through either
agree, and a write through the clone is observed through the original —
while its `states`, `subscriptions` and `ref_subscriptions` registries are
fresh (new `Rc` addresses, distinct from the original's) and empty. -/
theorem claim_C9 (σ : Type) :
    (∀ a b : StoreContext σ, StoreContext.eq a b = true ↔ a.store = b.store) ∧
    (∀ (c : StoreContext σ) (n : Nat),
      StoreContext.eq (StoreContext.clone c n) c = true ∧
      (StoreContext.clone c n).store = c.store ∧
      (∀ h : StoreHeap σ,
        StoreContext.read h (StoreContext.clone c n) =
          StoreContext.read h c) ∧
      (∀ (h : StoreHeap σ) (v : σ),
        StoreContext.read
          (StoreContext.write h (StoreContext.clone c n) v) c = v) ∧
      (StoreContext.clone c n).states.2 = [] ∧
      (StoreContext.clone c n).subscriptions.2 = [] ∧
      (StoreContext.clone c n).ref_subscriptions.2 = [] ∧
      (c.states.1 < n → c.subscriptions.1 < n → c.ref_subscriptions.1 < n →
        (StoreContext.clone c n).states.1 ≠ c.states.1 ∧
        (StoreContext.clone c n).subscriptions.1 ≠ c.subscriptions.1 ∧
        (StoreContext.clone c n).ref_subscriptions.1 ≠
          c.ref_subscriptions.1)) := by
  constructor
  · intro a b
    simp [StoreContext.eq]
  · intro c n
    refine ⟨by simp [StoreContext.eq, StoreContext.clone], rfl, fun h => rfl,
      fun h v => ?_, rfl, rfl, rfl, fun h1 h2 h3 => ?_⟩
    · simp [StoreContext.read, StoreContext.write, StoreContext.clone]
    · simp only [StoreContext.clone]
      exact ⟨by omega, by omega, by omega⟩

/-- Witness for C9 at a concrete input: cloning a context whose registries
live at addresses 1, 2, 3, with fresh addresses from 4. -/
theorem claim_C9_w :
    StoreContext.eq (StoreContext.clone c9ctx 4) c9ctx = true ∧
    StoreContext.read
      (StoreContext.write (fun _ => 0) (StoreContext.clone c9ctx 4) 7)
      c9ctx = 7 ∧
    (StoreContext.clone c9ctx 4).states.1 ≠ c9ctx.states.1 := by
  have h := (claim_C9 Nat).2 c9ctx 4
  exact ⟨h.1, h.2.2.2.1 (fun _ => 0) 7,
    (h.2.2.2.2.2.2.2 (by decide) (by decide) (by decide)).1⟩

end Yewv
